import Mathlib

/-!
Verification of the Scribd client library (`scribd/__init__.py`) against its
natural-language specification.  The Python source is shallowly embedded:
the two attribute dictionaries of `Resource` become association lists, the
dynamic `__getattr__` / `__setattr__` protocol becomes explicit functions,
and the network transport is an explicit parameter.  The code is Python 2,
and the embedding follows Python 2 semantics (byte strings vs. unicode
strings, `!=` falling back to address comparison when only `__eq__` is
defined, and so on).
-/

namespace Scribd

/-- Python `float` values as far as the library can observe them:
finite values (modelled as rationals), the two infinities produced by
`float('inf')` / `float('-inf')`, and `nan`. -/
inductive PyFloat where
  | finite (q : Rat)
  | inf
  | negInf
  | nan
deriving DecidableEq, Repr

/-- Values held in a resource attribute dictionary: Python `None`,
`int`, `float`, byte strings (`str`) and text strings (`unicode`). -/
inductive PyVal where
  | none
  | int (n : Int)
  | float (f : PyFloat)
  | str (s : String)
  | unicode (s : String)
deriving DecidableEq, Repr

/-- A Python `dict` with string keys, modelled as an association list. -/
abbrev AMap := List (String × PyVal)

/-- Dictionary lookup (`d[k]` / `d.get(k)`). -/
def AMap.find : AMap → String → Option PyVal
  | [], _ => Option.none
  | (k, v) :: rest, key => if k = key then some v else AMap.find rest key

/-- Dictionary assignment `d[k] = v`: replaces the binding in place, or
appends a fresh one. -/
def AMap.insert : AMap → String → PyVal → AMap
  | [], key, v => [(key, v)]
  | (k, w) :: rest, key, v =>
      if k = key then (k, v) :: rest else (k, w) :: AMap.insert rest key v

/-- `d.pop(k, None)`: removes the binding for `k` if present. -/
def AMap.erase : AMap → String → AMap
  | [], _ => []
  | (k, w) :: rest, key =>
      if k = key then AMap.erase rest key else (k, w) :: AMap.erase rest key

/-- `d1.update(d2)`: inserts every binding of `d2` into `d1`. -/
def AMap.updateAll (m n : AMap) : AMap :=
  n.foldl (fun acc p => AMap.insert acc p.1 p.2) m

/-- Option fallback used to express the pending-then-stored lookup order. -/
def orElseO (a b : Option PyVal) : Option PyVal :=
  match a with
  | some v => some v
  | Option.none => b

/-- Lookup in a string-valued attribute list (`element.attrs.get(name)`). -/
def sLookup : List (String × String) → String → Option String
  | [], _ => Option.none
  | (k, v) :: rest, key => if k = key then some v else sLookup rest key

/-- An `xmlparse.Element`: tag name, optional text content, XML attributes
and child elements. -/
inductive Element where
  | mk (name : String) (text : Option String) (attrs : List (String × String))
      (children : List Element)

/-- Tag name of an element. -/
def Element.name : Element → String
  | .mk n _ _ _ => n

/-- Text content of an element (`None` when the element has child nodes). -/
def Element.text : Element → Option String
  | .mk _ t _ _ => t

/-- XML attributes of an element. -/
def Element.attrs : Element → List (String × String)
  | .mk _ _ a _ => a

/-- Child elements, in document order. -/
def Element.children : Element → List Element
  | .mk _ _ _ c => c

/-- `element.attrs.get('type', None)`. -/
def Element.typeAttr (e : Element) : Option String :=
  sLookup (Element.attrs e) "type"

/-- `element.get(name)`: the first child element with the given tag name. -/
def Element.getChild (e : Element) (n : String) : Option Element :=
  (Element.children e).find? (fun c => Element.name c = n)

/-- True when every character of the string is ASCII, i.e. Python 2's
`str(u)` conversion of a unicode string succeeds. -/
def pyIsAscii (s : String) : Bool :=
  s.toList.all (fun c => c.toNat < 128)

/-- Python `int(text)` on a text string: optional surrounding whitespace,
an optional sign, then one or more decimal digits.  `Option.none` models a
raised `ValueError`. -/
def digitsToNat : List Char → Option Nat
  | [] => Option.none
  | cs =>
    if cs.all Char.isDigit then
      some (cs.foldl (fun acc c => acc * 10 + (c.toNat - 48)) 0)
    else Option.none

/-- Strips leading and trailing whitespace from a character list. -/
def stripWs (cs : List Char) : List Char :=
  ((cs.dropWhile Char.isWhitespace).reverse.dropWhile Char.isWhitespace).reverse

def pyParseInt (s : String) : Option Int :=
  match stripWs s.toList with
  | '+' :: ds => (digitsToNat ds).map Int.ofNat
  | '-' :: ds => (digitsToNat ds).map (fun n => -(Int.ofNat n))
  | ds => (digitsToNat ds).map Int.ofNat

/-- Mantissa parser for Python `float(text)`: `digits [. digits]` or
`. digits`, returning the value scaled as an integer together with the
number of fractional digits. -/
def splitMantissa (cs : List Char) : Option (Nat × Nat) :=
  match cs.span Char.isDigit with
  | (intPart, rest) =>
    match rest with
    | [] =>
      match digitsToNat intPart with
      | some n => some (n, 0)
      | Option.none => Option.none
    | '.' :: fracPart =>
      if intPart = [] ∧ fracPart = [] then Option.none
      else if fracPart.all Char.isDigit then
        some ((intPart ++ fracPart).foldl (fun acc c => acc * 10 + (c.toNat - 48)) 0,
              fracPart.length)
      else Option.none
    | _ => Option.none

/-- Exponent part of Python `float(text)`: optional `e`/`E` followed by an
optionally signed digit string; returns the remaining mantissa characters
and the exponent. -/
def splitExponent (cs : List Char) : Option (List Char × Int) :=
  match cs.reverse.span Char.isDigit with
  | (revDigits, revRest) =>
    match revRest with
    | 'e' :: pre => (digitsToNat revDigits.reverse).map
      (fun n => (pre.reverse, Int.ofNat n))
    | 'E' :: pre => (digitsToNat revDigits.reverse).map
      (fun n => (pre.reverse, Int.ofNat n))
    | '+' :: 'e' :: pre => (digitsToNat revDigits.reverse).map
      (fun n => (pre.reverse, Int.ofNat n))
    | '+' :: 'E' :: pre => (digitsToNat revDigits.reverse).map
      (fun n => (pre.reverse, Int.ofNat n))
    | '-' :: 'e' :: pre => (digitsToNat revDigits.reverse).map
      (fun n => (pre.reverse, -(Int.ofNat n)))
    | '-' :: 'E' :: pre => (digitsToNat revDigits.reverse).map
      (fun n => (pre.reverse, -(Int.ofNat n)))
    | _ => some (cs, 0)

/-- Unsigned numeric literal accepted by Python `float`. -/
def parseUnsignedFloat (cs : List Char) : Option PyFloat :=
  let lower := cs.map Char.toLower
  if lower = "inf".toList ∨ lower = "infinity".toList then some PyFloat.inf
  else if lower = "nan".toList then some PyFloat.nan
  else
    match splitExponent cs with
    | Option.none => Option.none
    | some (mant, ex) =>
      match splitMantissa mant with
      | Option.none => Option.none
      | some (n, fracDigits) =>
        some (PyFloat.finite ((n : Rat) * (10 : Rat) ^ (ex - (fracDigits : Int))))

/-- Python `float(text)`.  `Option.none` models a raised `ValueError`. -/
def pyParseFloat (s : String) : Option PyFloat :=
  match stripWs s.toList with
  | '+' :: cs => parseUnsignedFloat cs
  | '-' :: cs =>
    (parseUnsignedFloat cs).map (fun f =>
      match f with
      | PyFloat.finite q => PyFloat.finite (-q)
      | PyFloat.inf => PyFloat.negInf
      | PyFloat.negInf => PyFloat.inf
      | PyFloat.nan => PyFloat.nan)
  | cs => parseUnsignedFloat cs

/-- Python 2 `==` on float values: `nan` is unequal even to itself. -/
def PyFloat.eqb : PyFloat → PyFloat → Bool
  | .finite a, .finite b => decide (a = b)
  | .inf, .inf => true
  | .negInf, .negInf => true
  | _, _ => false

/-- Python 2 `==` on the values the library stores: numeric values compare
across `int`/`float`, a byte string compares equal to a unicode string when
its ASCII decoding matches, and mixed types are unequal. -/
def pyEq : PyVal → PyVal → Bool
  | .none, .none => true
  | .int a, .int b => decide (a = b)
  | .int a, .float (.finite q) => decide ((a : Rat) = q)
  | .float (.finite q), .int a => decide (q = (a : Rat))
  | .float a, .float b => PyFloat.eqb a b
  | .str a, .str b => decide (a = b)
  | .unicode a, .unicode b => decide (a = b)
  | .str a, .unicode b => pyIsAscii a && decide (a = b)
  | .unicode a, .str b => pyIsAscii b && decide (a = b)
  | _, _ => false

/-- The three concrete `Resource` subclasses. -/
inductive RKind where
  | user
  | virtualUser
  | document
deriving DecidableEq, Repr

/-- State of a `Resource` instance: its class, the `_attributes` dictionary
(attributes as loaded from the XML), the `_set_attributes` dictionary
(attributes set externally), and the `my_user_id` instance variable (used
only by `VirtualUser`).  The `owner` instance variable of `Document` is
modelled separately (`OwnedDoc`) where a claim needs it. -/
structure PyRes where
  kind : RKind
  attrsStored : AMap
  attrsSet : AMap
  myUserId : PyVal
deriving DecidableEq, Repr

/-- A freshly constructed resource with no attributes. -/
def PyRes.mk0 (k : RKind) : PyRes :=
  ⟨k, [], [], PyVal.str ""⟩

/-- The contents of `self._instance_vars_names` for each concrete class:
the instance variables present in `__dict__` at the end of `__init__`,
excluding `_instance_vars_names` itself (which is assigned after
`__dict__.keys()` is taken). -/
def instanceVarsNames : RKind → List String
  | .user => ["_attributes", "_set_attributes"]
  | .virtualUser => ["my_user_id", "_attributes", "_set_attributes"]
  | .document => ["owner", "_attributes", "_set_attributes"]

/-- All structural instance variables of an instance, i.e. the names that
live in `__dict__` and are therefore served by normal attribute lookup
rather than by `__getattr__` / the `_set_attributes` branch of
`__setattr__`. -/
def structuralVars (k : RKind) : List String :=
  "_instance_vars_names" :: instanceVarsNames k

/-- `Resource._get_id`, as overridden in each subclass:
`Document` returns `self.doc_id` (raising `AttributeError`, modelled as
`Option.none`, when absent); `User` returns
`getattr(self, 'user_id', 'api_user')`; `VirtualUser` returns
`self.my_user_id`. -/
def Resource.getId (e : PyRes) : Option PyVal :=
  match e.kind with
  | .document => orElseO (AMap.find e.attrsSet "doc_id") (AMap.find e.attrsStored "doc_id")
  | .user =>
    some ((orElseO (AMap.find e.attrsSet "user_id")
            (AMap.find e.attrsStored "user_id")).getD (PyVal.str "api_user"))
  | .virtualUser => some e.myUserId

/-- `Resource.__getattr__` alone — the hook Python invokes only after
normal lookup (instance `__dict__`, then class attributes) has failed;
the full read is `Resource.getFull`.  If the name is not a registered
instance variable, `'id'` resolves through `_get_id()`, every other name
through `_set_attributes` then `_attributes`; `Option.none` models a
raised `AttributeError`. -/
def Resource.getattr (e : PyRes) (name : String) : Option PyVal :=
  if name ∈ instanceVarsNames e.kind then Option.none
  else if name = "id" then Resource.getId e
  else orElseO (AMap.find e.attrsSet name) (AMap.find e.attrsStored name)

/-- Outcome of a full Python attribute read on a resource. -/
inductive AttrResult where
  /-- The name is an instance variable: the instance `__dict__` serves it. -/
  | instanceSlot
  /-- The name is an attribute of the class (a method defined in the
  module, or one of the attributes every CPython 2 object carries):
  normal lookup returns the bound method/descriptor, never consulting
  `_set_attributes`. -/
  | boundMethod
  /-- The `__getattr__` hook produced a resource-attribute value. -/
  | value (v : PyVal)
  /-- An `AttributeError` was raised. -/
  | attrError
deriving DecidableEq, Repr

/-- Attributes every instance of a user-defined CPython 2 class has via
`object` and the class object itself. -/
def objectAttrNames : List String :=
  ["__class__", "__delattr__", "__dict__", "__doc__", "__format__",
   "__getattribute__", "__hash__", "__init__", "__module__", "__new__",
   "__reduce__", "__reduce_ex__", "__repr__", "__setattr__", "__sizeof__",
   "__str__", "__subclasshook__", "__weakref__"]

/-- Attributes defined on the `Resource` class itself. -/
def resourceMethodNames : List String :=
  ["get_attributes", "_send_request", "_load_attributes", "__getattr__",
   "__eq__", "_get_id"]

/-- Methods the `User` class adds (also inherited by `VirtualUser`). -/
def userMethodNames : List String :=
  ["all", "xall", "get", "find", "xfind", "upload", "upload_from_url",
   "get_autologin_url"]

/-- Methods the `Document` class adds. -/
def documentMethodNames : List String :=
  ["get_conversion_status", "delete", "get_download_url", "load", "save",
   "replace", "replace_from_url", "get_scribd_url"]

/-- Every class-attribute name of the concrete class: names served by the
class (and its bases, `object` included) during normal attribute lookup,
before the `__getattr__` hook is ever consulted. -/
def classAttrNames : RKind → List String
  | .user => userMethodNames ++ resourceMethodNames ++ objectAttrNames
  | .virtualUser => userMethodNames ++ resourceMethodNames ++ objectAttrNames
  | .document => documentMethodNames ++ resourceMethodNames ++ objectAttrNames

/-- A full Python attribute read `obj.name`: the instance `__dict__`
first, then the class attributes (methods are non-data descriptors, so an
instance slot would win, and a class attribute is returned as the bound
method), and only when both miss does the `Resource.__getattr__` hook
run. -/
def Resource.getFull (e : PyRes) (name : String) : AttrResult :=
  if name ∈ structuralVars e.kind then AttrResult.instanceSlot
  else if name ∈ classAttrNames e.kind then AttrResult.boundMethod
  else
    match Resource.getattr e name with
    | some v => AttrResult.value v
    | Option.none => AttrResult.attrError

/-- `Resource.__setattr__`: a name registered in `_instance_vars_names` is
written to the instance variable itself (of the modelled instance variables
only `my_user_id` holds a `PyVal`; rebinding the dictionary slots or
`owner` to an arbitrary value is outside the value domain of this model and
is not exercised by any theorem); every other name is written into
`_set_attributes`. -/
def Resource.setattr (e : PyRes) (name : String) (v : PyVal) : PyRes :=
  if name ∈ instanceVarsNames e.kind then
    if name = "my_user_id" then { e with myUserId := v } else e
  else { e with attrsSet := AMap.insert e.attrsSet name v }

/-- Scalar coercion applied by `Resource._load_attributes` to an element's
text: a declared `integer` or `float` type is parsed (a `ValueError` is
caught, leaving the original unicode text); otherwise `str(text)` is
attempted, and a `UnicodeError` on non-ASCII text likewise leaves the
unicode text. -/
def loadCoerce (ty : Option String) (text : String) : PyVal :=
  if ty = some "integer" then
    match pyParseInt text with
    | some n => PyVal.int n
    | Option.none => PyVal.unicode text
  else if ty = some "float" then
    match pyParseFloat text with
    | some f => PyVal.float f
    | Option.none => PyVal.unicode text
  else
    if pyIsAscii text then PyVal.str text else PyVal.unicode text

/-- The value stored for one child element: `None` when the element has no
text, otherwise the coerced text. -/
def loadValue (e : Element) : PyVal :=
  match Element.text e with
  | Option.none => PyVal.none
  | some t => loadCoerce (Element.typeAttr e) t

/-- One iteration of the `_load_attributes` loop: store the element's value
in `_attributes` and drop any `_set_attributes` entry of the same name. -/
def loadStep (st : PyRes) (e : Element) : PyRes :=
  { st with
    attrsStored := AMap.insert st.attrsStored (Element.name e) (loadValue e),
    attrsSet := AMap.erase st.attrsSet (Element.name e) }

/-- `Resource._load_attributes(xml)`: iterates over the child elements of
the response element. -/
def load_attributes (st : PyRes) (xml : Element) : PyRes :=
  (Element.children xml).foldl loadStep st

/-- The field map represented by a list of child elements (the fields `F`
of the specification): name to coerced value, later duplicates winning. -/
def fieldsOf (l : List Element) : AMap :=
  l.foldl (fun m e => AMap.insert m (Element.name e) (loadValue e)) []

/-- `Resource.__eq__` between two resources (`isinstance(other, Resource)`
holds): `self.id == other.id`, evaluating the left identity first;
`Option.none` models an `AttributeError` escaping from `_get_id`. -/
def Resource.eq (a b : PyRes) : Option Bool :=
  match Resource.getId a with
  | Option.none => Option.none
  | some x =>
    match Resource.getId b with
    | Option.none => Option.none
    | some y => some (pyEq x y)

/-- `Resource.__hash__`: `hash(self.id)`, with the Python builtin `hash`
passed in as an opaque collaborator `h`. -/
def Resource.hashKey (h : PyVal → Int) (a : PyRes) : Option Int :=
  (Resource.getId a).map h

/-- Exceptions raised by the library, by Python class.  `notReady` is
`NotReadyError`, `malformedResponse` is `MalformedResponseError`,
`responseError` is `ResponseError`; the rest are Python builtins. -/
inductive PyErr where
  | notReady (msg : String)
  | malformedResponse (msg : String)
  | responseError (code : Int) (msg : String)
  | valueError (msg : String)
  | typeError (msg : String)
  | attributeError (msg : String)
  | keyError (msg : String)
  | indexError (msg : String)
deriving DecidableEq, Repr

/-- `isinstance(e, MalformedResponseError)`: the class has no subclasses
in the package. -/
def PyErr.isMalformedClass : PyErr → Bool
  | .malformedResponse _ => true
  | _ => false

/-- An API request as issued by `Resource._send_request(method, **fields)`,
before the session/signing layers add their own fields. -/
structure Request where
  method : String
  fields : AMap
deriving DecidableEq, Repr

/-- Keyword names that collide with the parameters of the
`_send_request(self, method, **fields)` call chain: passing any of them in
`**fields` raises a `TypeError` at call time. -/
def reservedKwargs : List String :=
  ["doc_ids", "method", "self"]

/-- `Document.save()`, with the transport passed in as `send` (returning
`.ok` for a successful round trip and `.error` for a raised exception).
Returns the outcome (`Bool` result or raised exception), the state of the
document afterwards, and the list of requests issued. -/
def Document.save (send : Request → Except PyErr Unit) (d : PyRes) :
    Except PyErr Bool × PyRes × List Request :=
  if d.attrsSet.isEmpty then (.ok false, d, [])
  else
    match Resource.getattr d "doc_id" with
    | Option.none => (.error (.attributeError "doc_id"), d, [])
    | some idv =>
      if d.attrsSet.any (fun p => decide (p.1 ∈ reservedKwargs)) then
        (.error (.typeError "got multiple values for keyword argument"), d, [])
      else
        let req : Request := ⟨"docs.changeSettings", ("doc_ids", idv) :: d.attrsSet⟩
        match send req with
        | .error e => (.error e, d, [req])
        | .ok _ =>
          (.ok true,
           { d with attrsStored := AMap.updateAll d.attrsStored d.attrsSet,
                    attrsSet := [] },
           [req])

/-- A `Document` instance together with its `owner` instance variable.
`ownerAddr` is the address of the owner object: Python 2 compares
`owner != doc.owner` through the default three-way comparison (no `__ne__`
or `__cmp__` is defined), which for objects of the same type compares
addresses. -/
structure OwnedDoc where
  ownerAddr : Nat
  owner : PyRes
  doc : PyRes
deriving DecidableEq, Repr

/-- An element of the sequence passed to the module-level `update()`
helper: either a `Document` or some other object. -/
inductive UpdateItem where
  | document (d : OwnedDoc)
  | nonDocument
deriving DecidableEq, Repr

/-- The validation loop of `update()`: every item must be a `Document`,
and each document's `owner` must be the same object (address comparison,
see `OwnedDoc`) as the first document's.  Returns the owner address. -/
def ownerCheck : List UpdateItem → Option Nat → Except PyErr (Option Nat)
  | [], acc => .ok acc
  | .nonDocument :: _, _ => .error (.valueError "expected a sequence of Document objects")
  | .document d :: rest, acc =>
    match acc with
    | Option.none => ownerCheck rest (some d.ownerAddr)
    | some a =>
      if a = d.ownerAddr then ownerCheck rest (some a)
      else .error (.valueError "all documents must have the same owner")

/-- `str` or `unicode` content of a value; `Option.none` models the
`TypeError` raised by `','.join(...)` on a non-string item. -/
def asString : PyVal → Option String
  | .str s => some s
  | .unicode s => some s
  | _ => Option.none

/-- The ids collected by `','.join(doc.id for doc in docs)`:
`doc.id` resolves through `_get_id` (raising `AttributeError` when
`doc_id` is absent) and must be a string.  The `nonDocument` case is
unreachable after `ownerCheck`. -/
def docIds : List UpdateItem → Except PyErr (List String)
  | [] => .ok []
  | .nonDocument :: _ => .error (.typeError "sequence item: expected string")
  | .document d :: rest =>
    match Resource.getId d.doc with
    | Option.none => .error (.attributeError "doc_id")
    | some v =>
      match asString v with
      | Option.none => .error (.typeError "sequence item: expected string")
      | some s => (docIds rest).map (fun l => s :: l)

/-- `setattr(doc, name, value)` applied for every entry of the field map,
in iteration order. -/
def setattrFold (d : PyRes) (fields : AMap) : PyRes :=
  fields.foldl (fun acc p => Resource.setattr acc p.1 p.2) d

/-- The module-level `update(docs, **fields)` helper: validate that all
items are documents sharing one owner object, issue a single
`docs.changeSettings` request with the comma-joined id list (when the
sequence is non-empty), then apply every field to every document through
`__setattr__`. -/
def update (items : List UpdateItem) (fields : AMap) :
    Except PyErr (Option Request × List OwnedDoc) :=
  match ownerCheck items Option.none with
  | .error e => .error e
  | .ok ownerAddr =>
    let reqE : Except PyErr (Option Request) :=
      match ownerAddr with
      | Option.none => .ok Option.none
      | some _ =>
        match docIds items with
        | .error e => .error e
        | .ok ids =>
          if fields.any (fun p => decide (p.1 ∈ reservedKwargs)) then
            .error (.typeError "got multiple values for keyword argument")
          else
            .ok (some ⟨"docs.changeSettings",
                       ("doc_ids", PyVal.str (String.intercalate "," ids)) :: fields⟩)
    match reqE with
    | .error e => .error e
    | .ok req =>
      .ok (req, items.filterMap (fun it =>
        match it with
        | .document d => some { d with doc := setattrFold d.doc fields }
        | .nonDocument => Option.none))

/-- A keyword argument value handed to `send_request`: `None` (dropped),
a string, or an integer (stringified).  File tuples are excluded here: the
claims about the signature concern field maps without file fields. -/
inductive Param where
  | null
  | str (s : String)
  | int (n : Int)
deriving DecidableEq, Repr

/-- The normalization loop of `send_request`: `None` values are dropped,
every other value is stringified. -/
def Param.toStr : Param → Option String
  | .null => Option.none
  | .str s => some s
  | .int n => some (toString n)

/-- The field dictionary built by `send_request` before signing:
`fields['method'] = method` and `fields['api_key'] = api_key` set or
overwrite those keys, then `None` entries are dropped and the remaining
values stringified. -/
def prepFields (method apiKey : String) (fields : List (String × Param)) :
    List (String × String) :=
  ("method", method) :: ("api_key", apiKey) ::
    ((fields.filter (fun p => ¬ (p.1 = "method" ∨ p.1 = "api_key"))).filterMap
      (fun p => (Param.toStr p.2).map (fun s => (p.1, s))))

/-- The order in which Python 2's `sign_items.sort()` arranges the
`(name, value)` tuples: lexicographic on the pair. -/
def pairLe (p q : String × String) : Prop :=
  p.1 < q.1 ∨ (p.1 = q.1 ∧ p.2 ≤ q.2)

instance : DecidableRel pairLe := fun p q => by
  unfold pairLe
  infer_instance

instance : IsTotal (String × String) pairLe where
  total p q := by
    rcases lt_trichotomy p.1 q.1 with h | h | h
    · exact Or.inl (Or.inl h)
    · rcases le_total p.2 q.2 with h2 | h2
      · exact Or.inl (Or.inr ⟨h, h2⟩)
      · exact Or.inr (Or.inr ⟨h.symm, h2⟩)
    · exact Or.inr (Or.inl h)

instance : IsTrans (String × String) pairLe where
  trans p q r hpq hqr := by
    rcases hpq with h1 | ⟨e1, l1⟩
    · rcases hqr with h2 | ⟨e2, _⟩
      · exact Or.inl (h1.trans h2)
      · exact Or.inl (e2 ▸ h1)
    · rcases hqr with h2 | ⟨e2, l2⟩
      · exact Or.inl (e1 ▸ h2)
      · exact Or.inr ⟨e1.trans e2, l1.trans l2⟩

instance : IsAntisymm (String × String) pairLe where
  antisymm p q hpq hqp := by
    rcases hpq with h1 | ⟨e1, l1⟩
    · rcases hqp with h2 | ⟨e2, _⟩
      · exact absurd (h1.trans h2) (lt_irrefl _)
      · exact absurd h1 (e2 ▸ lt_irrefl _)
    · rcases hqp with h2 | ⟨_, l2⟩
      · exact absurd h2 (e1 ▸ lt_irrefl _)
      · exact Prod.ext e1 (le_antisymm l1 l2)

/-- `sign_items.sort()`. -/
def sortPairs (l : List (String × String)) : List (String × String) :=
  List.insertionSort pairLe l

/-- The MD5 input built by `send_request`: the secret, followed by
`name + value` for every non-file field in sorted order. -/
def signInput (secret : String) (l : List (String × String)) : String :=
  secret ++ String.join ((sortPairs (l.filter (fun p => p.1 ≠ "file"))).map
    (fun p => p.1 ++ p.2))

/-- The `api_sig` value produced by `send_request`, with the `md5`
hex-digest primitive passed in as an opaque collaborator. -/
def sendRequestSig (md5hex : String → String) (secret apiKey method : String)
    (fields : List (String × Param)) : String :=
  md5hex (signInput secret (prepFields method apiKey fields))

/-- An HTTP response as consumed by `send_request`'s loop: the raw
`Status` header (after the `'200'` default), the raw `Content-Type` header
(after the `'text/plain'` default), and the result of XML-parsing the body
(`Option.none` when parsing raises). -/
structure HttpResp where
  statusHeader : String
  contentTypeHeader : String
  body : Option Element

/-- One attempt's outcome at the transport: a raised exception inside
`post_multipart`, or an HTTP response. -/
inductive Transp where
  | exn
  | resp (r : HttpResp)

/-- Worker for `pySplitWs`: accumulates the current word in reverse. -/
def splitWsAux : List Char → List Char → List String
  | [], acc => if acc = [] then [] else [String.mk acc.reverse]
  | c :: cs, acc =>
    if c.isWhitespace then
      if acc = [] then splitWsAux cs []
      else String.mk acc.reverse :: splitWsAux cs []
    else splitWsAux cs (c :: acc)

/-- Python `s.split()`: split on whitespace runs, dropping empty pieces. -/
def pySplitWs (s : String) : List String :=
  splitWsAux s.toList []

/-- Python `s.split(';')[0]`: the part before the first semicolon. -/
def beforeSemicolon : List Char → List Char
  | [] => []
  | c :: cs => if c = ';' then [] else c :: beforeSemicolon cs

/-- The response envelope interpretation after the retry loop: check the
`stat` attribute and on `'fail'` extract the error code and message. -/
def interpret (method : String) (x : Element) : Except PyErr Element :=
  match sLookup (Element.attrs x) "stat" with
  | Option.none => .error (.keyError "stat")
  | some st =>
    if st = "fail" then
      match Element.getChild x "error" with
      | Option.none =>
        -- code defaults to -1; the source appends the raw envelope text
        -- (via toxml) to the message, which is not reproduced here.
        .error (.responseError (-1) "unidentified error")
      | some err =>
        match sLookup (Element.attrs err) "code" with
        | Option.none => .error (.keyError "code")
        | some c =>
          match pyParseInt c with
          | Option.none => .error (.valueError "invalid literal for int")
          | some code =>
            match sLookup (Element.attrs err) "message" with
            | Option.none => .error (.keyError "message")
            | some m => .error (.responseError code (method ++ ": " ++ m))
    else .ok x

/-- The retry loop of `send_request`.  Each list entry is one attempt: the
elapsed wall-clock seconds since the first attempt as observed by the
retry check, and the transport outcome.  Returns the result and the number
of attempts consumed.  An empty list is a modelling artifact (a live
transport always answers) and yields a sentinel error. -/
def requestLoop (method : String) : List (Nat × Transp) → Except PyErr Element × Nat
  | [] => (.error (.notReady "transport exhausted"), 0)
  | (t, o) :: rest =>
    match o with
    | .exn =>
      if t < 10 then
        let r := requestLoop method rest
        (r.1, r.2 + 1)
      else (.error (.notReady "transport error"), 1)
    | .resp r =>
      match (pySplitWs r.statusHeader).head? with
      | Option.none => (.error (.indexError "list index out of range"), 1)
      | some status =>
        if status = "200" then
          let ctype := String.mk (beforeSemicolon r.contentTypeHeader.toList)
          if ctype = "application/xml" then
            match r.body with
            | some x =>
              if Element.name x = "rsp" then (interpret method x, 1)
              else (.error (.malformedResponse "remote host response could not be interpreted"), 1)
            | Option.none =>
              (.error (.malformedResponse "remote host response could not be interpreted"), 1)
          else
            (.error (.malformedResponse ("unexpected remote host response format: " ++ ctype)), 1)
        else if status = "500" then
          if t < 10 then
            let r2 := requestLoop method rest
            (r2.1, r2.2 + 1)
          else (.error (.notReady "remote host internal error"), 1)
        else (.error (.notReady ("remote host status error: " ++ status)), 1)

/-- `Document(result, owner)` as built by the paging loop: a fresh
document whose attributes are loaded from the result element. -/
def Document.ofResult (e : Element) : PyRes :=
  load_attributes (PyRes.mk0 RKind.document) e

/-- The generator loop of `User.xall`, run against a server-side
collection modelled as the full list of result elements: a page at offset
`o` with page size `limit` is `(coll.drop o).take limit`.  Returns the
yielded documents and the length of every page fetched (so the number of
API calls is the length of that list); the fuel bounds the number of
iterations, `Option.none` meaning the loop did not finish within it. -/
def xallFuel (coll : List Element) (limit : Nat) :
    Nat → Nat → Option (List PyRes × List Nat)
  | _, 0 => Option.none
  | offset, fuel + 1 =>
    let results := (coll.drop offset).take limit
    let docs := results.map Document.ofResult
    if results.length < limit then some (docs, [results.length])
    else
      match xallFuel coll limit (offset + results.length) fuel with
      | Option.none => Option.none
      | some (ds, pages) => some (docs ++ ds, results.length :: pages)

/-- `User.xall(page_size=...)`: `limit` is the requested page size,
defaulting to 100, and the offset starts absent (i.e. 0). -/
def User.xall (coll : List Element) (pageSize : Option Nat) (fuel : Nat) :
    Option (List PyRes × List Nat) :=
  xallFuel coll (pageSize.getD 100) 0 fuel

/-- The page-length sequence `xall` is expected to fetch for a collection
of `remaining` items at page size `limit`: full pages of `limit` items,
then one final short page. -/
def pageList (limit : Nat) : Nat → Nat → Option (List Nat)
  | _, 0 => Option.none
  | remaining, fuel + 1 =>
    if remaining < limit then some [remaining]
    else (pageList limit (remaining - limit) fuel).map (fun l => limit :: l)

/-! Concrete sample objects used by witnesses and counterexamples. -/

/-- A resource that has already stored the field `a` from an earlier load. -/
def sampleStored : PyRes :=
  ⟨RKind.document, [("a", PyVal.int 1)], [], PyVal.str ""⟩

/-- A response element carrying the single field `b`. -/
def sampleXmlB : Element :=
  Element.mk "rsp" Option.none [] [Element.mk "b" (some "2") [] []]

/-- A freshly logged-out user resource with no attributes. -/
def sampleUser : PyRes :=
  PyRes.mk0 RKind.user

/-- A document whose `doc_id` is the string `123`. -/
def sampleDoc123 : PyRes :=
  ⟨RKind.document, [("doc_id", PyVal.str "123")], [], PyVal.str ""⟩

/-- A user whose `user_id` is the string `123`. -/
def sampleUser123 : PyRes :=
  ⟨RKind.user, [("user_id", PyVal.str "123")], [], PyVal.str ""⟩

/-- A document with one pending field, for the save witnesses. -/
def samplePendingDoc : PyRes :=
  ⟨RKind.document, [("doc_id", PyVal.str "7")], [("title", PyVal.str "t")], PyVal.str ""⟩

/-- An HTTP 404 response. -/
def sampleResp404 : HttpResp :=
  ⟨"404 Not Found", "text/html", Option.none⟩

/-- A user object with identity `u` living at address 1. -/
def sampleOwnerAt1 : PyRes :=
  ⟨RKind.user, [("user_id", PyVal.str "u")], [], PyVal.str ""⟩

/-- A second, distinct user object with the same identity `u`, address 2. -/
def sampleOwnerAt2 : PyRes :=
  ⟨RKind.user, [("user_id", PyVal.str "u")], [], PyVal.str ""⟩

/-- Two documents owned by identity-equal but distinct owner objects. -/
def sampleDocOwned1 : OwnedDoc :=
  ⟨1, sampleOwnerAt1, ⟨RKind.document, [("doc_id", PyVal.str "1")], [], PyVal.str ""⟩⟩

def sampleDocOwned2 : OwnedDoc :=
  ⟨2, sampleOwnerAt2, ⟨RKind.document, [("doc_id", PyVal.str "2")], [], PyVal.str ""⟩⟩

/-- A document list sharing one owner object, for the update witness. -/
def sampleDocOwned3 : OwnedDoc :=
  ⟨1, sampleOwnerAt1, ⟨RKind.document, [("doc_id", PyVal.str "3")], [], PyVal.str ""⟩⟩

/-- A five-element server-side collection for the paging witness. -/
def sampleColl5 : List Element :=
  [Element.mk "result" Option.none [] [Element.mk "doc_id" (some "1") [] []],
   Element.mk "result" Option.none [] [Element.mk "doc_id" (some "2") [] []],
   Element.mk "result" Option.none [] [Element.mk "doc_id" (some "3") [] []],
   Element.mk "result" Option.none [] [Element.mk "doc_id" (some "4") [] []],
   Element.mk "result" Option.none [] [Element.mk "doc_id" (some "5") [] []]]

/-! Helper lemmas about the dictionary model. -/

theorem AMap.find_insert (m : AMap) (k : String) (v : PyVal) (key : String) :
    AMap.find (AMap.insert m k v) key = if k = key then some v else AMap.find m key := by
  induction m with
  | nil => simp [AMap.insert, AMap.find]
  | cons p rest ih =>
    obtain ⟨k0, w⟩ := p
    by_cases h0 : k0 = k
    · subst h0
      by_cases hk : k0 = key <;> simp [AMap.insert, AMap.find, hk]
    · by_cases hk : k0 = key
      · subst hk
        simp [AMap.insert, AMap.find, h0, Ne.symm h0]
      · simp [AMap.insert, AMap.find, h0, hk, ih]

theorem AMap.find_erase (m : AMap) (k : String) (key : String) :
    AMap.find (AMap.erase m k) key = if k = key then Option.none else AMap.find m key := by
  induction m with
  | nil => simp [AMap.erase, AMap.find]
  | cons p rest ih =>
    obtain ⟨k0, w⟩ := p
    by_cases h0 : k0 = k
    · subst h0
      by_cases hk : k0 = key
      · subst hk
        simpa [AMap.erase, AMap.find] using ih
      · simp [AMap.erase, AMap.find, hk, ih]
    · by_cases hk : k0 = key
      · subst hk
        simp [AMap.erase, AMap.find, h0, Ne.symm h0]
      · simp [AMap.erase, AMap.find, h0, hk, ih]

theorem AMap.find_eq_none (m : AMap) (key : String)
    (h : key ∉ m.map Prod.fst) : AMap.find m key = Option.none := by
  induction m with
  | nil => rfl
  | cons p rest ih =>
    simp only [List.map_cons, List.mem_cons] at h
    push_neg at h
    simp [AMap.find, Ne.symm h.1, ih h.2]

theorem AMap.find_updateAll (n : AMap) (m : AMap) (key : String)
    (hn : (n.map Prod.fst).Nodup) :
    AMap.find (AMap.updateAll m n) key = orElseO (AMap.find n key) (AMap.find m key) := by
  induction n generalizing m with
  | nil => simp [AMap.updateAll, AMap.find, orElseO]
  | cons p rest ih =>
    obtain ⟨k0, v0⟩ := p
    simp only [List.map_cons, List.nodup_cons] at hn
    have step : AMap.updateAll m ((k0, v0) :: rest) =
        AMap.updateAll (AMap.insert m k0 v0) rest := rfl
    rw [step, ih _ hn.2]
    by_cases hk : k0 = key
    · subst hk
      have : AMap.find rest k0 = Option.none :=
        AMap.find_eq_none rest k0 hn.1
      simp [AMap.find, this, AMap.find_insert, orElseO]
    · simp [AMap.find, hk, AMap.find_insert, orElseO]

/-! Helper lemmas about attribute loading. -/

theorem foldl_loadStep_stored (l : List Element) (st : PyRes) :
    (l.foldl loadStep st).attrsStored =
      l.foldl (fun m e => AMap.insert m (Element.name e) (loadValue e)) st.attrsStored := by
  induction l generalizing st with
  | nil => rfl
  | cons e rest ih => simp [List.foldl_cons, ih, loadStep]

theorem foldl_loadStep_set (l : List Element) (st : PyRes) :
    (l.foldl loadStep st).attrsSet =
      l.foldl (fun m e => AMap.erase m (Element.name e)) st.attrsSet := by
  induction l generalizing st with
  | nil => rfl
  | cons e rest ih => simp [List.foldl_cons, ih, loadStep]

theorem find_foldl_insert (l : List Element) (m : AMap) (key : String) :
    AMap.find (l.foldl (fun m e => AMap.insert m (Element.name e) (loadValue e)) m) key =
      orElseO (AMap.find (fieldsOf l) key) (AMap.find m key) := by
  induction l generalizing m with
  | nil => simp [fieldsOf, AMap.find, orElseO]
  | cons e rest ih =>
    have hl : fieldsOf (e :: rest) =
        rest.foldl (fun m e => AMap.insert m (Element.name e) (loadValue e))
          (AMap.insert [] (Element.name e) (loadValue e)) := rfl
    rw [List.foldl_cons, ih, hl, ih, AMap.find_insert, AMap.find_insert]
    by_cases hk : Element.name e = key
    · cases hfind : AMap.find (fieldsOf rest) key <;> simp [hk, orElseO, hfind]
    · cases hfind : AMap.find (fieldsOf rest) key <;>
        simp [hk, orElseO, hfind, AMap.find]

theorem find_foldl_erase (l : List Element) (m : AMap) (key : String) :
    AMap.find (l.foldl (fun m e => AMap.erase m (Element.name e)) m) key =
      if key ∈ l.map Element.name then Option.none else AMap.find m key := by
  induction l generalizing m with
  | nil => simp
  | cons e rest ih =>
    rw [List.foldl_cons, ih, AMap.find_erase]
    by_cases hk : Element.name e = key
    · simp [hk]
    · simp [hk, Ne.symm hk]

/-! Helper lemmas about `__setattr__` folding (used by the batch update). -/

theorem setattr_kind (d : PyRes) (k : String) (v : PyVal) :
    (Resource.setattr d k v).kind = d.kind := by
  unfold Resource.setattr
  split
  · split <;> rfl
  · rfl

theorem setattrFold_kind (fields : AMap) (d : PyRes) :
    (setattrFold d fields).kind = d.kind := by
  induction fields generalizing d with
  | nil => rfl
  | cons p rest ih =>
    simpa [setattrFold, List.foldl_cons, setattr_kind]
      using (setattr_kind d p.1 p.2 ▸ ih (Resource.setattr d p.1 p.2))

theorem find_setattr_other (d : PyRes) (k : String) (v : PyVal) (key : String)
    (h : k ≠ key) :
    AMap.find (Resource.setattr d k v).attrsSet key = AMap.find d.attrsSet key := by
  unfold Resource.setattr
  split
  · split <;> rfl
  · simp [AMap.find_insert, h]

theorem find_setattrFold_not_mem (fields : AMap) (d : PyRes) (key : String)
    (h : key ∉ fields.map Prod.fst) :
    AMap.find (setattrFold d fields).attrsSet key = AMap.find d.attrsSet key := by
  induction fields generalizing d with
  | nil => rfl
  | cons p rest ih =>
    simp only [List.map_cons, List.mem_cons] at h
    push_neg at h
    have step : setattrFold d (p :: rest) =
        setattrFold (Resource.setattr d p.1 p.2) rest := rfl
    rw [step, ih _ h.2, find_setattr_other _ _ _ _ (Ne.symm h.1)]

theorem find_setattrFold_mem (fields : AMap) :
    ∀ (d : PyRes) (k : String) (v : PyVal),
      (fields.map Prod.fst).Nodup → (k, v) ∈ fields →
      k ∉ instanceVarsNames d.kind →
      AMap.find (setattrFold d fields).attrsSet k = some v := by
  induction fields with
  | nil =>
    intro d k v _ hmem _
    cases hmem
  | cons p rest ih =>
    intro d k v hnd hmem hniv
    obtain ⟨p1, p2⟩ := p
    simp only [List.map_cons, List.nodup_cons] at hnd
    have step : setattrFold d ((p1, p2) :: rest) =
        setattrFold (Resource.setattr d p1 p2) rest := rfl
    rcases List.mem_cons.mp hmem with hid | hrest
    · injection hid with hk hv
      subst hk
      subst hv
      have hkeys : k ∉ rest.map Prod.fst := hnd.1
      rw [step, find_setattrFold_not_mem rest _ k hkeys]
      unfold Resource.setattr
      rw [if_neg hniv]
      simp [AMap.find_insert]
    · have hk : p1 ≠ k := by
        intro he
        exact hnd.1 (he ▸ (List.mem_map.mpr ⟨(k, v), hrest, rfl⟩))
      have hniv2 : k ∉ instanceVarsNames (Resource.setattr d p1 p2).kind := by
        rw [setattr_kind]
        exact hniv
      rw [step, ih _ k v hnd.2 hrest hniv2]

/-! Helper lemmas about the batch-update validation and id collection. -/

theorem ownerCheck_same (ds : List OwnedDoc) (a : Nat)
    (h : ∀ d ∈ ds, d.ownerAddr = a) :
    ownerCheck (ds.map UpdateItem.document) (some a) = .ok (some a) := by
  induction ds with
  | nil => rfl
  | cons d rest ih =>
    have hd : d.ownerAddr = a := h d (List.mem_cons_self d rest)
    simp only [List.map_cons, ownerCheck, hd, if_pos rfl]
    exact ih (fun x hx => h x (List.mem_cons_of_mem d hx))

theorem docIds_ok (ds : List OwnedDoc) (ids : List String)
    (h : ds.map (fun d => (Resource.getId d.doc).bind asString) = ids.map some) :
    docIds (ds.map UpdateItem.document) = .ok ids := by
  induction ds generalizing ids with
  | nil =>
    cases ids with
    | nil => rfl
    | cons i rest => simp at h
  | cons d rest ih =>
    cases ids with
    | nil => simp at h
    | cons i irest =>
      simp only [List.map_cons, List.cons.injEq] at h
      obtain ⟨h1, h2⟩ := h
      obtain ⟨v, hv, hs⟩ := Option.bind_eq_some.mp h1
      have hstep : docIds (UpdateItem.document d :: rest.map UpdateItem.document) =
          (docIds (rest.map UpdateItem.document)).map (fun l => i :: l) := by
        simp [docIds, hv, hs]
      rw [List.map_cons, hstep, ih irest h2]
      rfl

/-! Helper lemma for the paging loop. -/

theorem xallFuel_pages (limit : Nat) (hl : 0 < limit) :
    ∀ fuel coll offset, (coll.length - offset) / limit < fuel →
      xallFuel coll limit offset fuel =
        (pageList limit (coll.length - offset) fuel).map
          (fun pg => ((coll.drop offset).map Document.ofResult, pg)) ∧
      (pageList limit (coll.length - offset) fuel).isSome = true := by
  intro fuel
  induction fuel with
  | zero => intro coll offset h; exact absurd h (Nat.not_lt_zero _)
  | succ fuel ih =>
    intro coll offset h
    have hlen : ((coll.drop offset).take limit).length =
        min limit (coll.length - offset) := by
      simp [List.length_take, List.length_drop]
    by_cases hshort : coll.length - offset < limit
    · have htake : (coll.drop offset).take limit = coll.drop offset := by
        apply List.take_of_length_le
        simp [List.length_drop]
        omega
      have hltlen : ((coll.drop offset).take limit).length < limit := by
        rw [hlen]; omega
      constructor
      · rw [xallFuel, if_pos hltlen, htake]
        simp [pageList, if_pos hshort, htake, hlen, Nat.min_eq_right (le_of_lt hshort)]
      · simp [pageList, if_pos hshort]
    · have hle : limit ≤ coll.length - offset := Nat.le_of_not_lt hshort
      have hlim_eq : ((coll.drop offset).take limit).length = limit := by
        rw [hlen]; omega
      have hdivstep : (coll.length - offset) / limit =
          (coll.length - offset - limit) / limit + 1 :=
        Nat.div_eq_sub_div hl hle
      have hrem : coll.length - (offset + limit) = coll.length - offset - limit := by
        omega
      have hnext : (coll.length - (offset + limit)) / limit < fuel := by
        rw [hrem]
        have hlt : (coll.length - offset - limit) / limit + 1 < fuel + 1 :=
          hdivstep ▸ h
        exact Nat.lt_of_succ_lt_succ hlt
      obtain ⟨ihEq, ihSome⟩ := ih coll (offset + limit) hnext
      obtain ⟨pg, hpg⟩ := Option.isSome_iff_exists.mp ihSome
      have hdropdrop : coll.drop (offset + limit) = (coll.drop offset).drop limit := by
        rw [List.drop_drop, Nat.add_comm]
      have hsplit : (coll.drop offset).take limit ++ (coll.drop offset).drop limit =
          coll.drop offset := List.take_append_drop _ _
      have hdocs : ((coll.drop offset).take limit).map Document.ofResult ++
          (coll.drop (offset + limit)).map Document.ofResult =
          (coll.drop offset).map Document.ofResult := by
        rw [hdropdrop, ← List.map_append, hsplit]
      constructor
      · rw [xallFuel, if_neg (by omega), hlim_eq]
        rw [ihEq, hpg]
        simp only [Option.map_some']
        rw [pageList, if_neg hshort, ← hrem, hpg]
        simp only [Option.map_some']
        rw [hdocs]
      · rw [pageList, if_neg hshort, ← hrem, hpg]
        rfl

/-- Round trip through the two overridden protocol methods alone: writing
a non-instance-variable name lands in `_set_attributes`, and the
`__getattr__` hook reads it back (for any name other than `id`). -/
theorem getattr_setattr_roundtrip (e : PyRes) (name : String) (v : PyVal)
    (hiv : name ∉ instanceVarsNames e.kind) (hid : name ≠ "id") :
    Resource.getattr (Resource.setattr e name v) name = some v := by
  unfold Resource.setattr
  rw [if_neg hiv]
  unfold Resource.getattr
  simp only [if_neg hiv, if_neg hid]
  simp [AMap.find_insert, orElseO]

/-! Helper lemma for signature canonicalization. -/

theorem sortPairs_perm_eq (l1 l2 : List (String × String)) (hp : l1.Perm l2) :
    sortPairs l1 = sortPairs l2 :=
  List.eq_of_perm_of_sorted
    (((List.perm_insertionSort pairLe l1).trans hp).trans
      (List.perm_insertionSort pairLe l2).symm)
    (List.sorted_insertionSort pairLe l1)
    (List.sorted_insertionSort pairLe l2)

/-! The claims. -/

/-- Claim C1, amended: calling `_load_attributes` with an element tree
representing fields `F` merges `F` into `storedFields` — each loaded field
overwrites any stored value of the same name, while stored names absent
from `F` persist — and removes from `pendingFields` every key present in
`F`, leaving pending keys absent from `F` untouched.  (The claim's
`storedFields = F` fails when old stored fields are absent from `F`.) -/
theorem c1_load_attributes_merges (st : PyRes) (xml : Element) (key : String) :
    AMap.find (load_attributes st xml).attrsStored key =
      orElseO (AMap.find (fieldsOf (Element.children xml)) key)
        (AMap.find st.attrsStored key) ∧
    AMap.find (load_attributes st xml).attrsSet key =
      (if key ∈ (Element.children xml).map Element.name then Option.none
       else AMap.find st.attrsSet key) := by
  constructor
  · unfold load_attributes
    rw [foldl_loadStep_stored, find_foldl_insert]
  · unfold load_attributes
    rw [foldl_loadStep_set, find_foldl_erase]

/-- Claim C1 counterexample: loading the single-field tree `b=2` into a
resource whose stored fields are `a=1` leaves `a` stored with its old
value, while the loaded field map `F` has no entry for `a` — so the
resulting `storedFields` is not equal to `F`. -/
theorem c1_counterexample :
    AMap.find (load_attributes sampleStored sampleXmlB).attrsStored "a" =
      some (PyVal.int 1) ∧
    AMap.find (fieldsOf (Element.children sampleXmlB)) "a" = Option.none := by
  constructor <;> rfl

/-- Claim C2, amended: for every attribute name that is not served by
normal attribute lookup — neither a structural instance variable nor a
class attribute (a method of the entity's class or one of the attributes
every object carries) — and is not the reserved name `id`, performing
`set(name, v)` and then a full attribute read of `name` returns exactly
`v`, including on an entity that has never been loaded.  (The claim
fails for `id`, which resolves through `_get_id()`, and for
class-attribute names such as `all`, where normal lookup returns the
bound method without consulting `pendingFields`: see the
counterexample.) -/
theorem c2_set_get_roundtrip (e : PyRes) (name : String) (v : PyVal)
    (hs : name ∉ structuralVars e.kind) (hc : name ∉ classAttrNames e.kind)
    (hid : name ≠ "id") :
    Resource.getFull (Resource.setattr e name v) name = AttrResult.value v := by
  have hiv : name ∉ instanceVarsNames e.kind := fun hmem =>
    hs (List.mem_cons_of_mem _ hmem)
  have hg := getattr_setattr_roundtrip e name v hiv hid
  unfold Resource.getFull
  rw [setattr_kind, if_neg hs, if_neg hc, hg]

theorem c2_set_get_roundtrip_witness :
    "title" ∉ structuralVars sampleUser.kind ∧
    "title" ∉ classAttrNames sampleUser.kind ∧ ("title" : String) ≠ "id" ∧
    Resource.getFull (Resource.setattr sampleUser "title" (PyVal.str "x")) "title" =
      AttrResult.value (PyVal.str "x") :=
  ⟨by decide, by decide, by decide,
   c2_set_get_roundtrip sampleUser "title" (PyVal.str "x") (by decide) (by decide)
     (by decide)⟩

/-- Claim C2 counterexample: `id` is not a structural instance variable,
yet after `set('id', 'x')` on a fresh user, `get('id')` resolves through
`_get_id()` and returns `api_user`, not the value just set; likewise the
class-attribute name `all` is neither structural nor `id`, yet after
`set('all', 'x')` a full read of `all` returns the bound class method,
not the value just set. -/
theorem c2_counterexample :
    Resource.getattr (Resource.setattr sampleUser "id" (PyVal.str "x")) "id" =
      some (PyVal.str "api_user") ∧
    Resource.getattr (Resource.setattr sampleUser "id" (PyVal.str "x")) "id" ≠
      some (PyVal.str "x") ∧
    Resource.getFull (Resource.setattr sampleUser "all" (PyVal.str "x")) "all" =
      AttrResult.boundMethod ∧
    Resource.getFull (Resource.setattr sampleUser "all" (PyVal.str "x")) "all" ≠
      AttrResult.value (PyVal.str "x") := by
  refine ⟨rfl, by decide, rfl, by decide⟩

/-- Claim C10: during `_load_attributes`, if a child element declares type
`integer` or `float` but its text does not parse as that type, or declares
neither and the text cannot be converted to a plain (ASCII) string, no
error is raised — the loading step is total — and the original unconverted
text is stored in `storedFields` under the element's name. -/
theorem c10_coercion_failure_keeps_text (st : PyRes) (nm t : String)
    (attrs : List (String × String)) (ch : List Element)
    (h : (sLookup attrs "type" = some "integer" ∧ pyParseInt t = Option.none) ∨
         (sLookup attrs "type" = some "float" ∧ pyParseFloat t = Option.none) ∨
         (sLookup attrs "type" ≠ some "integer" ∧ sLookup attrs "type" ≠ some "float" ∧
          pyIsAscii t = false)) :
    AMap.find (loadStep st (Element.mk nm (some t) attrs ch)).attrsStored nm =
      some (PyVal.unicode t) := by
  have hv : loadValue (Element.mk nm (some t) attrs ch) = PyVal.unicode t := by
    unfold loadValue Element.text Element.typeAttr Element.attrs loadCoerce
    rcases h with ⟨h1, h2⟩ | ⟨h1, h2⟩ | ⟨h1, h2, h3⟩
    · simp [h1, h2]
    · simp [h1, h2]
    · simp [h1, h2, h3]
  unfold loadStep
  simp [AMap.find_insert, hv, Element.name]

theorem c10_coercion_failure_keeps_text_witness :
    (sLookup [("type", "integer")] "type" = some "integer" ∧
     pyParseInt "abc" = Option.none) ∧
    AMap.find (loadStep (PyRes.mk0 RKind.document)
        (Element.mk "views" (some "abc") [("type", "integer")] [])).attrsStored "views" =
      some (PyVal.unicode "abc") :=
  ⟨⟨rfl, rfl⟩,
   c10_coercion_failure_keeps_text (PyRes.mk0 RKind.document) "views" "abc"
     [("type", "integer")] [] (Or.inl ⟨rfl, rfl⟩)⟩

/-- Claim C3, amended: two Resource instances compare equal exactly when
their derived identity values are Python-equal, and hashing uses the same
identity key; in particular two instances with the identical (reflexively
Python-equal) identity value compare equal and hash identically.  The
identity carries no class tag, so a Document and a User whose ids coincide
also compare equal (see the counterexample). -/
theorem c3_eq_hash_by_identity (a b : PyRes) (x y : PyVal) (h : PyVal → Int)
    (hx : Resource.getId a = some x) (hy : Resource.getId b = some y) :
    Resource.eq a b = some (pyEq x y) ∧
    (Resource.hashKey h a = some (h x) ∧ Resource.hashKey h b = some (h y)) ∧
    (x = y → pyEq x x = true →
      Resource.eq a b = some true ∧ Resource.hashKey h a = Resource.hashKey h b) := by
  have heq : Resource.eq a b = some (pyEq x y) := by
    unfold Resource.eq
    rw [hx, hy]
  refine ⟨heq, ⟨?_, ?_⟩, ?_⟩
  · unfold Resource.hashKey
    rw [hx]
    rfl
  · unfold Resource.hashKey
    rw [hy]
    rfl
  · intro hxy hrefl
    subst hxy
    constructor
    · rw [heq, hrefl]
    · unfold Resource.hashKey
      rw [hx, hy]

theorem c3_eq_hash_by_identity_witness :
    Resource.getId sampleDoc123 = some (PyVal.str "123") ∧
    Resource.eq sampleDoc123
        ⟨RKind.document, [("doc_id", PyVal.str "123")], [], PyVal.str "o"⟩ =
      some true :=
  ⟨rfl,
   ((c3_eq_hash_by_identity sampleDoc123
        ⟨RKind.document, [("doc_id", PyVal.str "123")], [], PyVal.str "o"⟩
        (PyVal.str "123") (PyVal.str "123") (fun _ => 0) rfl rfl).2.2
      rfl (by decide)).1⟩

/-- Claim C3 counterexample: a Document with `doc_id = '123'` and a User
with `user_id = '123'` compare equal — `__eq__` compares the bare id
values with no identity domain separation. -/
theorem c3_counterexample :
    Resource.eq sampleDoc123 sampleUser123 = some true := by
  decide

/-- Claim C4: `Document.save()` on a document whose `doc_id` resolves,
whose pending names avoid the reserved keyword-argument names and are
duplicate-free: when `pendingFields` is non-empty and the request round
trip succeeds, it issues the single `docs.changeSettings` request carrying
every pending field, merges pending into stored (pending winning on
collisions), clears pending, and returns true; when `pendingFields` is
empty it returns false, issues no request and mutates nothing, for any
transport. -/
theorem c4_save_behavior (d : PyRes) (idv : PyVal)
    (hid : Resource.getattr d "doc_id" = some idv)
    (hres : ∀ p ∈ d.attrsSet, p.1 ∉ reservedKwargs)
    (hnd : (d.attrsSet.map Prod.fst).Nodup) :
    (d.attrsSet ≠ [] →
      (Document.save (fun _ => .ok ()) d =
        (.ok true,
         { d with attrsStored := AMap.updateAll d.attrsStored d.attrsSet,
                  attrsSet := [] },
         [⟨"docs.changeSettings", ("doc_ids", idv) :: d.attrsSet⟩]) ∧
       ∀ key, AMap.find (AMap.updateAll d.attrsStored d.attrsSet) key =
         orElseO (AMap.find d.attrsSet key) (AMap.find d.attrsStored key))) ∧
    (d.attrsSet = [] →
      ∀ send, Document.save send d = (.ok false, d, [])) := by
  constructor
  · intro hne
    constructor
    · have hempty : d.attrsSet.isEmpty = false := by
        cases hd : d.attrsSet with
        | nil => exact absurd hd hne
        | cons p rest => rfl
      have hany : d.attrsSet.any (fun p => decide (p.1 ∈ reservedKwargs)) = false := by
        rw [List.any_eq_false]
        intro p hp
        simpa using hres p hp
      unfold Document.save
      rw [hempty, hid, hany]
      rfl
    · intro key
      exact AMap.find_updateAll _ _ _ hnd
  · intro he send
    unfold Document.save
    rw [he]
    rfl

theorem c4_save_behavior_witness :
    samplePendingDoc.attrsSet ≠ [] ∧
    Document.save (fun _ => .ok ()) samplePendingDoc =
      (.ok true,
       { samplePendingDoc with
           attrsStored := AMap.updateAll samplePendingDoc.attrsStored
             samplePendingDoc.attrsSet,
           attrsSet := [] },
       [⟨"docs.changeSettings",
         ("doc_ids", PyVal.str "7") :: samplePendingDoc.attrsSet⟩]) :=
  ⟨by decide,
   ((c4_save_behavior samplePendingDoc (PyVal.str "7") rfl (by decide)
       (by decide)).1 (by decide)).1⟩

/-- Claim C5: if the request round trip inside `Document.save()` raises,
the document's state — pending fields, stored fields and hence identity —
is returned exactly as it was before the call, and the call never reports
a successful save. -/
theorem c5_save_atomic_on_error (d : PyRes) (send : Request → Except PyErr Unit)
    (er : PyErr) (hfail : ∀ r, send r = .error er) :
    (Document.save send d).2.1 = d ∧ (Document.save send d).1 ≠ .ok true := by
  unfold Document.save
  by_cases he : d.attrsSet.isEmpty
  · simp [he]
  · simp only [he, Bool.false_eq_true, if_false]
    cases hid : Resource.getattr d "doc_id" with
    | none => simp
    | some idv =>
      by_cases hany : d.attrsSet.any (fun p => decide (p.1 ∈ reservedKwargs))
      · simp [hany]
      · simp [hany, hfail]

theorem c5_save_atomic_on_error_witness :
    (Document.save (fun _ => .error (PyErr.responseError 401 "unauthorized"))
        samplePendingDoc).2.1 = samplePendingDoc ∧
    (Document.save (fun _ => .error (PyErr.responseError 401 "unauthorized"))
        samplePendingDoc).1 ≠ .ok true :=
  c5_save_atomic_on_error samplePendingDoc
    (fun _ => .error (PyErr.responseError 401 "unauthorized"))
    (PyErr.responseError 401 "unauthorized") (fun _ => rfl)

/-- Claim C6: for every field map containing no file-valued field and
every secret, the `api_sig` produced by `send_request` is a deterministic
function of the name-to-value mapping and the secret — identical for any
permutation of the supplied fields — computed by sorting the fields by
name, concatenating name + value in sorted order, prepending the secret,
and taking the (opaque) MD5 hex digest. -/
theorem c6_signature_deterministic (md5hex : String → String)
    (secret apiKey method : String) (f1 f2 : List (String × Param))
    (hp : f1.Perm f2) :
    sendRequestSig md5hex secret apiKey method f1 =
      sendRequestSig md5hex secret apiKey method f2 := by
  have hs : sortPairs ((prepFields method apiKey f1).filter (fun p => p.1 ≠ "file")) =
      sortPairs ((prepFields method apiKey f2).filter (fun p => p.1 ≠ "file")) := by
    apply sortPairs_perm_eq
    apply List.Perm.filter
    unfold prepFields
    exact (((hp.filter _).filterMap _).cons _).cons _
  unfold sendRequestSig signInput
  rw [hs]

theorem c6_signature_deterministic_witness :
    ([("b", Param.str "2"), ("a", Param.str "1")].Perm
      [("a", Param.str "1"), ("b", Param.str "2")]) ∧
    sendRequestSig (fun s => s) "secret" "key" "docs.getList"
        [("b", Param.str "2"), ("a", Param.str "1")] =
      sendRequestSig (fun s => s) "secret" "key" "docs.getList"
        [("a", Param.str "1"), ("b", Param.str "2")] :=
  ⟨List.Perm.swap ("a", Param.str "1") ("b", Param.str "2") [],
   c6_signature_deterministic (fun s => s) "secret" "key" "docs.getList" _ _
     (List.Perm.swap ("a", Param.str "1") ("b", Param.str "2") [])⟩

/-- Claim C7: `xall` with requested page size n (default 100) repeatedly
issues list calls, each page being the next n items after those already
yielded (the offset advances by the number of results returned), and
stops exactly after the first page that returns fewer than n results: for
a collection of L items it yields every item exactly once, in order, and
the fetched page lengths are full pages of n followed by one short page
(`pageList`).  The fuel merely bounds the modelled loop; any fuel beyond
L / n suffices. -/
theorem c7_xall_paging (coll : List Element) (pageSize : Option Nat) (fuel : Nat)
    (hl : 0 < pageSize.getD 100) (hf : coll.length / pageSize.getD 100 < fuel) :
    User.xall coll pageSize fuel =
      (pageList (pageSize.getD 100) coll.length fuel).map
        (fun pg => (coll.map Document.ofResult, pg)) ∧
    (pageList (pageSize.getD 100) coll.length fuel).isSome = true := by
  have h := xallFuel_pages (pageSize.getD 100) hl fuel coll 0 (by simpa using hf)
  unfold User.xall
  simpa using h

theorem c7_xall_paging_witness :
    0 < (some 2 : Option Nat).getD 100 ∧ sampleColl5.length / 2 < 4 ∧
    User.xall sampleColl5 (some 2) 4 =
      some (sampleColl5.map Document.ofResult, [2, 2, 1]) ∧
    pageList 2 sampleColl5.length 4 = some [2, 2, 1] :=
  ⟨by decide, by decide,
   by
     have h := (c7_xall_paging sampleColl5 (some 2) 4 (by decide) (by decide)).1
     rw [h]
     rfl,
   rfl⟩

/-- Claim C8, amended: when the HTTP response status is neither 200 nor
500, `send_request` fails immediately on that attempt — no retry, no use
of any later transport attempt — but the error raised is a
`NotReadyError` (`remote host status error`), not a MalformedResponse-class
error (see the counterexample). -/
theorem c8_non200_500_immediate (method : String) (t : Nat) (r : HttpResp)
    (rest : List (Nat × Transp)) (status : String)
    (hst : (pySplitWs r.statusHeader).head? = some status)
    (h200 : status ≠ "200") (h500 : status ≠ "500") :
    requestLoop method ((t, Transp.resp r) :: rest) =
      (.error (.notReady ("remote host status error: " ++ status)), 1) := by
  simp only [requestLoop]
  rw [hst]
  simp [h200, h500]

theorem c8_non200_500_immediate_witness :
    (pySplitWs sampleResp404.statusHeader).head? = some "404" ∧
    requestLoop "docs.getList" [(0, Transp.resp sampleResp404)] =
      (.error (.notReady ("remote host status error: " ++ "404")), 1) :=
  ⟨rfl,
   c8_non200_500_immediate "docs.getList" 0 sampleResp404 [] "404" rfl
     (by decide) (by decide)⟩

/-- Claim C8 counterexample: an HTTP 404 response makes `send_request`
raise `NotReadyError('remote host status error: 404')` after exactly one
attempt; the raised error is not an instance of the MalformedResponse
class. -/
theorem c8_counterexample :
    (requestLoop "docs.getList" [(0, Transp.resp sampleResp404)]).1 =
      .error (.notReady "remote host status error: 404") ∧
    (requestLoop "docs.getList" [(0, Transp.resp sampleResp404)]).2 = 1 ∧
    PyErr.isMalformedClass (.notReady "remote host status error: 404") = false := by
  refine ⟨?_, ?_, rfl⟩ <;> rfl

/-- The local-application pass of `update` over a validated document list:
folding `__setattr__` over every document. -/
theorem filterMap_setattr_docs (l : List OwnedDoc) (fields : AMap) :
    (l.map UpdateItem.document).filterMap (fun it =>
        match it with
        | UpdateItem.document d => some { d with doc := setattrFold d.doc fields }
        | UpdateItem.nonDocument => Option.none) =
      l.map (fun d => { d with doc := setattrFold d.doc fields }) := by
  induction l with
  | nil => rfl
  | cons d rest ih => simp [ih]

/-- Claim C9, amended: the batch helper `update(documents, fields)` raises
a `ValueError` unless every element is a Document and all documents carry
the same owner object — Python 2's `!=`, with only `__eq__` defined, falls
back to address comparison, so identity-equal but distinct owner objects
raise (see the counterexample).  For a non-empty list of documents sharing
one owner object, with resolvable string ids and field names avoiding the
reserved keyword-argument names, it issues exactly one
`docs.changeSettings` request carrying the comma-joined id list and the
given fields, then applies each field to every document through
`__setattr__` — so for duplicate-free non-structural field names the
values land in `pendingFields`, not in `storedFields`. -/
theorem c9_update_batch (d0 : OwnedDoc) (ds : List OwnedDoc) (fields : AMap)
    (ids : List String)
    (hown : ∀ d ∈ d0 :: ds, d.ownerAddr = d0.ownerAddr)
    (hids : (d0 :: ds).map (fun d => (Resource.getId d.doc).bind asString) =
      ids.map some)
    (hres : ∀ p ∈ fields, p.1 ∉ reservedKwargs) :
    update ((d0 :: ds).map UpdateItem.document) fields =
      .ok (some ⟨"docs.changeSettings",
                 ("doc_ids", PyVal.str (String.intercalate "," ids)) :: fields⟩,
           (d0 :: ds).map (fun d => { d with doc := setattrFold d.doc fields })) ∧
    (∀ d ∈ d0 :: ds, ∀ k v, (fields.map Prod.fst).Nodup → (k, v) ∈ fields →
      k ∉ instanceVarsNames d.doc.kind →
      AMap.find (setattrFold d.doc fields).attrsSet k = some v) := by
  constructor
  · have hoc : ownerCheck ((d0 :: ds).map UpdateItem.document) Option.none =
        .ok (some d0.ownerAddr) := by
      simp only [List.map_cons, ownerCheck]
      exact ownerCheck_same ds d0.ownerAddr
        (fun d hd => hown d (List.mem_cons_of_mem _ hd))
    have hdi : docIds ((d0 :: ds).map UpdateItem.document) = .ok ids :=
      docIds_ok _ _ hids
    have hany : fields.any (fun p => decide (p.1 ∈ reservedKwargs)) = false := by
      rw [List.any_eq_false]
      intro p hp
      simpa using hres p hp
    unfold update
    rw [hoc]
    simp only [hdi, hany, Bool.false_eq_true, if_false]
    rw [filterMap_setattr_docs]
  · intro d _ k v hnd hmem hniv
    exact find_setattrFold_mem fields d.doc k v hnd hmem hniv

theorem c9_update_batch_witness :
    (∀ d ∈ [sampleDocOwned1, sampleDocOwned3], d.ownerAddr = sampleDocOwned1.ownerAddr) ∧
    update ([sampleDocOwned1, sampleDocOwned3].map UpdateItem.document)
        [("title", PyVal.str "x")] =
      .ok (some ⟨"docs.changeSettings",
                 ("doc_ids", PyVal.str (String.intercalate "," ["1", "3"])) ::
                   [("title", PyVal.str "x")]⟩,
           [sampleDocOwned1, sampleDocOwned3].map
             (fun d => { d with doc := setattrFold d.doc [("title", PyVal.str "x")] })) :=
  ⟨by decide,
   (c9_update_batch sampleDocOwned1 [sampleDocOwned3] [("title", PyVal.str "x")]
      ["1", "3"] (by decide) rfl (by decide)).1⟩

/-- Claim C9 counterexample: two documents whose owners are identity-equal
(equal `user_id`, so equal derived identity) but distinct objects make
`update` raise `ValueError('all documents must have the same owner')`,
although the claim's shared-owner-by-identity condition is satisfied. -/
theorem c9_counterexample :
    Resource.getId sampleDocOwned1.owner = Resource.getId sampleDocOwned2.owner ∧
    update [UpdateItem.document sampleDocOwned1, UpdateItem.document sampleDocOwned2] [] =
      .error (.valueError "all documents must have the same owner") := by
  constructor
  · rfl
  · rfl

end Scribd
